import Mathlib

/-!
Verification of the maplibre-gl-geo-editor editing-session engine

Shallow embedding of the editing core of `maplibre-gl-geo-editor`:
the command-based undo/redo history (`HistoryManager`), the command
classes (`CreateFeatureCommand`, `EditFeatureCommand`,
`DeleteFeatureCommand`, `CompositeCommand`), the geometry operations
(`UnionFeature.union`, `DifferenceFeature.difference`) and the
selection / pending-operation fragment of the `GeoEditor` mode state
machine.

Modelling conventions:
* GeoJSON features are records of an optional id, a geometry and a
  property map (an association list).  Geometry content is opaque to
  every verified path, so it is embedded as its type tag plus integer
  coordinate rings.
* The host Feature Store (the Geoman collaborator, external to the
  repository) is a partial map from ids to stored feature content.
  `importGeoJsonFeature` stores a feature under its extracted id and
  reports that id back; a feature without an extractable id is not
  imported (the handle is `none`).  Stored content is keyed by the same
  id that its GeoJSON carries, so the id scans performed by the command
  classes (`fdId === featureId || geoJsonId === featureId`) reduce to a
  key lookup.
* The geometry-algebra primitives (turf `union` / `difference`) are
  external; the operations are parametric in them.  A primitive that
  may throw is embedded as a function into `Except String _`.
* Impure fresh-id generation (`generateFeatureId`, `Date.now()`
  fallback bases) is embedded by passing the generated string as an
  explicit argument.
* DOM / rendering / console side effects (highlight layers, popups,
  cursor, `console.warn`) have no observable effect on the modelled
  state and are dropped.
-/

namespace GeoEd

/-- Geometry of a GeoJSON feature: its `type` tag (`"Polygon"`,
`"MultiPolygon"`, `"LineString"`, ...) and coordinate rings.  No
verified code path computes on coordinates, so they are embedded as
integer pairs. -/
structure Geom where
  gtype : String
  coords : List (List (Int × Int))
  deriving DecidableEq, Repr

/-- A GeoJSON `Feature`: optional id, geometry, and a free-form
property map (association list, later keys override earlier ones). -/
structure Feature where
  id : Option String
  geom : Geom
  properties : List (String × String)
  deriving DecidableEq, Repr

/-- Look a key up in a property map (first binding wins, as
`props?.key` reads the single binding of a JS object). -/
def lookupProp (key : String) (props : List (String × String)) : Option String :=
  (props.find? (fun kv => kv.fst == key)).map (fun kv => kv.snd)

/-- The `extractFeatureId` helper of the command classes:
`feature.id ?? props?.__gm_id ?? props?.id`, stringified. -/
def extractFeatureId (f : Feature) : Option String :=
  f.id <|> lookupProp "__gm_id" f.properties <|> lookupProp "id" f.properties

/-- Content stored for one feature in the host Feature Store. -/
structure StoredFeature where
  geom : Geom
  properties : List (String × String)
  deriving DecidableEq, Repr

/-- The host Feature Store (the external Geoman collaborator, spec §6):
a partial map from feature ids to stored content. -/
abbrev Store := String → Option StoredFeature

/-- Modelled from the spec (§6 `importFeature(feature) -> handle-or-null`):
the external Feature Store's import.  The feature is stored under its
extracted id and that id is reported back as the handle's id; a feature
with no extractable id yields a `none` handle and no store change. -/
def importGeoJsonFeature (f : Feature) (s : Store) : Option String × Store :=
  match extractFeatureId f with
  | some i => (some i, fun k => if k = i then some ⟨f.geom, f.properties⟩ else s k)
  | none => (none, s)

/-- Modelled from the spec (§6 `deleteFeature`): remove the entry with
the given id (tolerant of the id being absent). -/
def deleteById (i : String) (s : Store) : Store :=
  fun k => if k = i then none else s k

/-- Modelled from the spec (§6 `updateGeometry`): replace the geometry
of the entry with the given id, keeping its properties; a no-op when
the id is absent. -/
def updateGeometryAt (i : String) (g : Geom) (s : Store) : Store :=
  fun k => if k = i then (s i).map (fun d => { d with geom := g }) else s k

/-! ## Commands (`src/lib/core/commands/*`)

The three leaf command classes capture deep-cloned feature state at
construction time; cloning is the identity on the embedded values.
The `description` strings are not modelled (no claim mentions them). -/

/-- The three leaf command classes. -/
inductive LeafCommand where
  /-- Class `CreateFeatureCommand(feature)`. -/
  | createFeature (feature : Feature)
  /-- Class `EditFeatureCommand(oldFeature, newFeature)`. -/
  | editFeature (oldFeature newFeature : Feature)
  /-- Class `DeleteFeatureCommand(feature)`. -/
  | deleteFeature (feature : Feature)
  deriving DecidableEq, Repr

/-- Tracked id of `EditFeatureCommand`:
`extractFeatureId(newFeature) || extractFeatureId(oldFeature)`. -/
def editTargetId (oldFeature newFeature : Feature) : Option String :=
  extractFeatureId newFeature <|> extractFeatureId oldFeature

/-- Method `execute()` of the leaf command classes.
Create re-imports the captured feature; edit pushes the new geometry
onto the store entry matching the tracked id; delete removes every
entry matching the tracked id (a single keyed entry in this store). -/
def LeafCommand.execute : LeafCommand → Store → Store
  | .createFeature f, s => (importGeoJsonFeature f s).2
  | .editFeature o n, s =>
    match editTargetId o n with
    | some i => updateGeometryAt i n.geom s
    | none => s
  | .deleteFeature f, s =>
    match extractFeatureId f with
    | some i => deleteById i s
    | none => s

/-- Method `undo()` of the leaf command classes (the mirror images). -/
def LeafCommand.undo : LeafCommand → Store → Store
  | .createFeature f, s =>
    match extractFeatureId f with
    | some i => deleteById i s
    | none => s
  | .editFeature o n, s =>
    match editTargetId o n with
    | some i => updateGeometryAt i o.geom s
    | none => s
  | .deleteFeature f, s => (importGeoJsonFeature f s).2

/-- A leaf command is *coherent* with a store when its captured state
matches the store it is about to execute against — which is exactly the
situation in which the command was recorded during live operation:
a create was recorded when its feature was newly created (id fresh),
an edit captured the geometry that was actually there, and a delete
captured the content that was actually deleted. -/
def LeafCommand.coherent : LeafCommand → Store → Prop
  | .createFeature f, s => ∀ i, extractFeatureId f = some i → s i = none
  | .editFeature o n, s =>
    ∀ i d, editTargetId o n = some i → s i = some d → d.geom = o.geom
  | .deleteFeature f, s =>
    ∀ i, extractFeatureId f = some i → s i = some ⟨f.geom, f.properties⟩

/-- A command as recorded by the editor: either a leaf command or a
`CompositeCommand` over a list of leaf commands (the editor only ever
builds composites of delete/create leaves, see
`GeoEditor.recordCompositeOperation`). -/
inductive Command where
  | leaf (c : LeafCommand)
  | composite (commands : List LeafCommand)
  deriving DecidableEq, Repr

/-- Source `CompositeCommand.execute()`: run all sub-commands in list order. -/
def Command.execute : Command → Store → Store
  | .leaf c, s => c.execute s
  | .composite l, s => l.foldl (fun s c => c.execute s) s

/-- Source `CompositeCommand.undo()`: undo all sub-commands in reverse order. -/
def Command.undo : Command → Store → Store
  | .leaf c, s => c.undo s
  | .composite l, s => l.reverse.foldl (fun s c => c.undo s) s

/-- Coherence threaded through the sub-commands of a composite. -/
def coherentList : List LeafCommand → Store → Prop
  | [], _ => True
  | c :: l, s => c.coherent s ∧ coherentList l (c.execute s)

/-- Coherence of a recorded command with the store it executed against. -/
def Command.coherent : Command → Store → Prop
  | .leaf c, s => c.coherent s
  | .composite l, s => coherentList l s

theorem leaf_undo_execute (c : LeafCommand) (s : Store) (h : c.coherent s) :
    c.undo (c.execute s) = s := by
  funext k
  cases c with
  | createFeature f =>
    simp only [LeafCommand.execute, LeafCommand.undo, importGeoJsonFeature]
    cases hid : extractFeatureId f with
    | none => rfl
    | some i =>
      simp only [deleteById]
      by_cases hk : k = i
      · subst hk; simp [h k hid]
      · simp [hk]
  | editFeature o n =>
    simp only [LeafCommand.execute, LeafCommand.undo]
    cases hid : editTargetId o n with
    | none => rfl
    | some i =>
      simp only [updateGeometryAt]
      by_cases hk : k = i
      · subst hk
        simp only [if_pos rfl]
        cases hd : s k with
        | none => simp
        | some d => simp [← h k d hid hd]
      · simp [hk]
  | deleteFeature f =>
    simp only [LeafCommand.execute, LeafCommand.undo, importGeoJsonFeature]
    cases hid : extractFeatureId f with
    | none => rfl
    | some i =>
      simp only [deleteById]
      by_cases hk : k = i
      · subst hk; simp [h k hid]
      · simp [hk]

theorem composite_undo_execute (l : List LeafCommand) (s : Store)
    (h : coherentList l s) :
    l.reverse.foldl (fun s c => LeafCommand.undo c s)
      (l.foldl (fun s c => LeafCommand.execute c s) s) = s := by
  induction l generalizing s with
  | nil => rfl
  | cons c l ih =>
    simp only [List.reverse_cons, List.foldl_append, List.foldl_cons, List.foldl_nil]
    rw [ih (c.execute s) h.2, leaf_undo_execute c s h.1]

/-- Each recorded command's `undo()` inverts its `execute()` at the
store it was recorded against. -/
theorem Command.undo_execute (c : Command) (s : Store) (h : c.coherent s) :
    c.undo (c.execute s) = s := by
  cases c with
  | leaf c => exact leaf_undo_execute c s h
  | composite l => exact composite_undo_execute l s h

/-! ## HistoryManager (`src/lib/core/HistoryManager.ts`)

Generic over the command type, as the source class is agnostic to what
a command does.  Stacks are lists with the *top* (most recently pushed)
element at the head; the source's array `push`/`pop` act on the top and
`shift` (eviction of the oldest entry) removes the last element of the
list.  `command.undo()` / `command.execute()` dispatch is embedded by
passing the interpretation function explicitly.  The optional
`onHistoryChange` callback is embedded as the `(canUndo, canRedo)`
payload that `notifyChange` would deliver (`none` when no notification
fires). -/

structure HistoryManager (α : Type) where
  undoStack : List α
  redoStack : List α
  maxSize : Nat
  isExecuting : Bool

namespace HistoryManager

variable {α : Type} {σ : Type}

/-- Source `canUndo(): return this.undoStack.length > 0`. -/
def canUndo (m : HistoryManager α) : Bool := decide (0 < m.undoStack.length)

/-- Source `canRedo(): return this.redoStack.length > 0`. -/
def canRedo (m : HistoryManager α) : Bool := decide (0 < m.redoStack.length)

/-- Source `isExecutingCommand()`. -/
def isExecutingCommand (m : HistoryManager α) : Bool := m.isExecuting

/-- Payload of `getState()`. -/
structure HistoryState where
  canUndo : Bool
  canRedo : Bool
  undoCount : Nat
  redoCount : Nat
  deriving DecidableEq, Repr

/-- Source `getState()`. -/
def getState (m : HistoryManager α) : HistoryState :=
  { canUndo := m.canUndo, canRedo := m.canRedo
    undoCount := m.undoStack.length, redoCount := m.redoStack.length }

/-- The eviction loop of `record`:
`while (this.undoStack.length > this.maxSize) this.undoStack.shift()`.
`shift` drops the oldest entry, i.e. the last element of the
top-at-head list. -/
def evict (l : List α) (maxSize : Nat) : List α :=
  if l.length ≤ maxSize then l else evict l.dropLast maxSize
termination_by l.length
decreasing_by
  simp only [List.length_dropLast]
  omega

/-- Source `record(command)`: skip entirely while executing; otherwise push
onto the undo stack, evict down to `maxSize`, clear the redo stack and
notify with the updated `(canUndo, canRedo)`. -/
def record (command : α) (m : HistoryManager α) :
    HistoryManager α × Option (Bool × Bool) :=
  if m.isExecuting then (m, none)
  else
    let m1 := { m with undoStack := evict (command :: m.undoStack) m.maxSize
                       redoStack := ([] : List α) }
    (m1, some (m1.canUndo, m1.canRedo))

/-- Source `undo()`: no-op returning `false` on an empty stack; otherwise pop
the top command, run its `undo()` with the executing flag set (the flag
is reset by `finally`, so it is `false` in the result), push the
command onto the redo stack and return `true`. -/
def undo (doUndo : α → σ → σ) (m : HistoryManager α) (s : σ) :
    Bool × HistoryManager α × σ :=
  match m.undoStack with
  | [] => (false, m, s)
  | c :: rest =>
    (true,
     { m with undoStack := rest, redoStack := c :: m.redoStack, isExecuting := false },
     doUndo c s)

/-- Source `redo()`: symmetric — pop from the redo stack, run `execute()`,
push back onto the undo stack (without eviction). -/
def redo (doExecute : α → σ → σ) (m : HistoryManager α) (s : σ) :
    Bool × HistoryManager α × σ :=
  match m.redoStack with
  | [] => (false, m, s)
  | c :: rest =>
    (true,
     { m with redoStack := rest, undoStack := c :: m.undoStack, isExecuting := false },
     doExecute c s)

/-- Source `clear()`: empty both stacks (the notification payload is
`(false, false)`). -/
def clear (m : HistoryManager α) : HistoryManager α × Option (Bool × Bool) :=
  ({ m with undoStack := [], redoStack := [] }, some (false, false))

/-- Running `undo()` against a command whose `undo()` body may throw
(`behavior c = Except.error ()` models a throw).  The pop happens
before the `try` block and the `finally` clears the executing flag,
but the push onto the redo stack and the notification sit after the
`try`/`finally` and are skipped when the exception propagates: the
`Except.error` carries the manager state seen by the caller's handler. -/
def undoFallible (behavior : α → Except Unit Unit) (m : HistoryManager α) :
    Except (HistoryManager α) (Bool × HistoryManager α) :=
  match m.undoStack with
  | [] => .ok (false, m)
  | c :: rest =>
    match behavior c with
    | .ok _ =>
      .ok (true, { m with undoStack := rest, redoStack := c :: m.redoStack,
                          isExecuting := false })
    | .error _ => .error { m with undoStack := rest, isExecuting := false }

/-- Running `redo()` against a command whose `execute()` body may throw. -/
def redoFallible (behavior : α → Except Unit Unit) (m : HistoryManager α) :
    Except (HistoryManager α) (Bool × HistoryManager α) :=
  match m.redoStack with
  | [] => .ok (false, m)
  | c :: rest =>
    match behavior c with
    | .ok _ =>
      .ok (true, { m with redoStack := rest, undoStack := c :: m.undoStack,
                          isExecuting := false })
    | .error _ => .error { m with redoStack := rest, isExecuting := false }

/-- The executing flag of either outcome of a fallible undo/redo. -/
def outcomeExecutingFlag (r : Except (HistoryManager α) (Bool × HistoryManager α)) : Bool :=
  match r with
  | .ok p => p.2.isExecutingCommand
  | .error m => m.isExecutingCommand

end HistoryManager

/-- Record a whole list of commands in order. -/
def recordAll {α : Type} (cs : List α) (m : HistoryManager α) : HistoryManager α :=
  cs.foldl (fun m c => (HistoryManager.record c m).1) m

/-- Iterate `undo()` `n` times, threading the external state. -/
def undoN {α σ : Type} (doUndo : α → σ → σ) :
    Nat → HistoryManager α × σ → HistoryManager α × σ
  | 0, p => p
  | n + 1, (m, s) =>
    let r := HistoryManager.undo doUndo m s
    undoN doUndo n (r.2.1, r.2.2)

/-- Iterate `redo()` `n` times, threading the external state. -/
def redoN {α σ : Type} (doExecute : α → σ → σ) :
    Nat → HistoryManager α × σ → HistoryManager α × σ
  | 0, p => p
  | n + 1, (m, s) =>
    let r := HistoryManager.redo doExecute m s
    redoN doExecute n (r.2.1, r.2.2)

/-- Run a list of recorded commands forward over the store. -/
def execAll (cs : List Command) (s : Store) : Store :=
  cs.foldl (fun s c => c.execute s) s

/-- Coherence of a whole recorded sequence, threaded step by step:
each command's captured state matches the store it executed against. -/
def coherentRun : List Command → Store → Prop
  | [], _ => True
  | c :: l, s => c.coherent s ∧ coherentRun l (c.execute s)

/-! ## History lemmas -/

theorem HistoryManager.evict_eq_take {α : Type} (l : List α) (n : Nat) :
    HistoryManager.evict l n = l.take n := by
  rw [HistoryManager.evict]
  split
  case isTrue h => exact (List.take_of_length_le h).symm
  case isFalse h =>
    rw [HistoryManager.evict_eq_take l.dropLast n, List.dropLast_eq_take, List.take_take]
    congr 1
    omega
termination_by l.length
decreasing_by
  simp only [List.length_dropLast]
  omega

theorem take_append_take {α : Type} (xs ys : List α) (n : Nat) :
    (xs ++ ys.take n).take n = (xs ++ ys).take n := by
  rw [List.take_append_eq_append_take, List.take_append_eq_append_take, List.take_take]
  congr 2
  omega

theorem record_eq {α : Type} (c : α) (m : HistoryManager α) (h : m.isExecuting = false) :
    HistoryManager.record c m =
      ({ m with undoStack := (c :: m.undoStack).take m.maxSize, redoStack := [] },
       some (decide (0 < ((c :: m.undoStack).take m.maxSize).length), false)) := by
  simp [HistoryManager.record, h, HistoryManager.evict_eq_take, HistoryManager.canUndo,
    HistoryManager.canRedo]

theorem recordAll_cons {α : Type} (c : α) (l : List α) (m : HistoryManager α) :
    recordAll (c :: l) m = recordAll l (HistoryManager.record c m).1 := rfl

theorem recordAll_spec {α : Type} (cs : List α) (m : HistoryManager α)
    (h : m.isExecuting = false) (hne : cs ≠ []) :
    recordAll cs m =
      { m with undoStack := (cs.reverse ++ m.undoStack).take m.maxSize, redoStack := [] } := by
  induction cs generalizing m with
  | nil => cases hne rfl
  | cons c l ih =>
    rw [recordAll_cons]
    rcases eq_or_ne l [] with hl | hl
    · subst hl
      show (HistoryManager.record c m).1 = _
      rw [record_eq c m h]
      simp
    · rw [ih (HistoryManager.record c m).1 (by rw [record_eq c m h]; exact h) hl,
        record_eq c m h]
      simp only [take_append_take, List.reverse_cons, List.append_assoc,
        List.singleton_append]

theorem coherentRun_append (l₁ l₂ : List Command) (s : Store) :
    coherentRun (l₁ ++ l₂) s ↔ coherentRun l₁ s ∧ coherentRun l₂ (execAll l₁ s) := by
  induction l₁ generalizing s with
  | nil => simp [coherentRun, execAll]
  | cons c l ih =>
    constructor
    · rintro ⟨h1, h2⟩
      have h3 := (ih (c.execute s)).mp h2
      exact ⟨⟨h1, h3.1⟩, h3.2⟩
    · rintro ⟨⟨h1, h2⟩, h3⟩
      exact ⟨h1, (ih (c.execute s)).mpr ⟨h2, h3⟩⟩

theorem execAll_append (l₁ l₂ : List Command) (s : Store) :
    execAll (l₁ ++ l₂) s = execAll l₂ (execAll l₁ s) := by
  simp [execAll, List.foldl_append]

theorem undoN_reversal (cs u r : List Command) (max : Nat) (s₀ : Store)
    (hcoh : coherentRun cs s₀) :
    undoN Command.undo cs.length
      (⟨cs.reverse ++ u, r, max, false⟩, execAll cs s₀)
    = (⟨u, cs ++ r, max, false⟩, s₀) := by
  induction cs using List.reverseRecOn generalizing r s₀ with
  | nil => rfl
  | append_singleton l c ih =>
    obtain ⟨hl, hc, -⟩ :=
      ((coherentRun_append l [c] s₀).mp hcoh : _ ∧ Command.coherent c (execAll l s₀) ∧ True)
    have hlen : (l ++ [c]).length = l.length + 1 := by simp
    have hrev : (l ++ [c]).reverse ++ u = c :: (l.reverse ++ u) := by simp
    rw [hlen, hrev, execAll_append]
    show undoN Command.undo (l.length + 1) _ = _
    simp only [undoN, HistoryManager.undo]
    have hs : Command.undo c (execAll [c] (execAll l s₀)) = execAll l s₀ := by
      show Command.undo c (Command.execute c (execAll l s₀)) = _
      exact Command.undo_execute c (execAll l s₀) hc
    rw [hs, ih (c :: r) s₀ hl]
    simp

theorem redoN_replay (cs u r : List Command) (max : Nat) (s : Store) :
    redoN Command.execute cs.length
      (⟨u, cs ++ r, max, false⟩, s)
    = (⟨cs.reverse ++ u, r, max, false⟩, execAll cs s) := by
  induction cs generalizing u s with
  | nil => rfl
  | cons c l ih =>
    simp only [List.length_cons, List.cons_append, redoN, HistoryManager.redo]
    rw [ih (c :: u) (Command.execute c s)]
    simp [execAll, List.reverse_cons, List.append_assoc]

/-! ## Geometry operations (`UnionFeature`, `DifferenceFeature`)

The turf primitives are external; the operations are parametric in
them.  A primitive returning `Except.error msg` models a thrown
exception (caught at the operation boundary), `Except.ok none` models
a `null` return.  The impure `generateFeatureId()` is passed in as the
string it produced. -/

/-- Spread-merge `{...cloned.properties, ...options.properties}` of two
property maps; bindings of the second override those of the first. -/
def mergeProps (old extra : List (String × String)) : List (String × String) :=
  old.filter (fun kv => !(extra.any (fun kv2 => kv2.fst == kv.fst))) ++ extra

/-- Apply `options?.properties` to a result feature. -/
def applyOptionProps (optProps : Option (List (String × String))) (f : Feature) : Feature :=
  match optProps with
  | some extra => { f with properties := mergeProps f.properties extra }
  | none => f

/-- Result type `UnionResult` (`src/lib/core/types`): `error = none` embeds
`undefined`. -/
structure UnionResult where
  result : Option Feature
  originals : List Feature
  success : Bool
  error : Option String
  deriving DecidableEq, Repr

namespace UnionFeature

/-- Source `UnionFeature.union(features, options?)`.  `prim` is the boolean
union of a whole feature collection (`turf.union`); `gen` is the id
produced by `generateFeatureId()`. -/
def union (prim : List Feature → Except String (Option Feature)) (gen : String)
    (features : List Feature) (optProps : Option (List (String × String))) : UnionResult :=
  match features with
  | [] =>
    { result := none, originals := [], success := false, error := some "No features provided" }
  | [f] =>
    { result := some (applyOptionProps optProps { f with id := some gen })
      originals := [f], success := true, error := none }
  | _ =>
    match prim features with
    | .ok (some r) =>
      { result := some (applyOptionProps optProps { r with id := some gen })
        originals := features, success := true, error := none }
    | .ok none =>
      { result := none, originals := features, success := false
        error := some "Union operation returned null" }
    | .error e =>
      { result := none, originals := features, success := false
        error := some ("Union operation failed: " ++ e) }

end UnionFeature

/-- Result type `DifferenceResult` (`src/lib/core/types`). -/
structure DifferenceResult where
  result : Option Feature
  base : Feature
  subtracted : List Feature
  success : Bool
  error : Option String
  deriving DecidableEq, Repr

namespace DifferenceFeature

/-- The subtraction loop of `DifferenceFeature.difference`:
`for (const poly of subtract) { if (!result) break;
result = turf.difference([result, poly]) }`.
`prim cur poly` is `turf.difference(featureCollection([cur, poly]))`,
which may throw (`Except.error`). -/
def differenceGo (prim : Feature → Feature → Except String (Option Feature)) :
    Option Feature → List Feature → Except String (Option Feature)
  | r, [] => .ok r
  | none, _ :: _ => .ok none
  | some cur, poly :: rest => do
    let r ← prim cur poly
    differenceGo prim r rest

/-- Source `DifferenceFeature.difference(base, subtract, options?)`. -/
def difference (prim : Feature → Feature → Except String (Option Feature)) (gen : String)
    (base : Feature) (subtract : List Feature)
    (optProps : Option (List (String × String))) : DifferenceResult :=
  match subtract with
  | [] =>
    { result := some { base with id := some gen }, base := base, subtracted := []
      success := true, error := none }
  | _ =>
    match differenceGo prim (some base) subtract with
    | .ok r =>
      { result := r.map (fun f => applyOptionProps optProps { f with id := some gen })
        base := base, subtracted := subtract, success := true, error := none }
    | .error e =>
      { result := none, base := base, subtracted := subtract, success := false
        error := some ("Difference operation failed: " ++ e) }

/-- Once the running result is `null`, the rest of the subtract list is
never consulted (the loop breaks). -/
theorem differenceGo_none (prim : Feature → Feature → Except String (Option Feature))
    (l : List Feature) : differenceGo prim none l = .ok none := by
  cases l <;> rfl

theorem differenceGo_append (prim : Feature → Feature → Except String (Option Feature))
    (p rest : List Feature) (r : Option Feature)
    (h : differenceGo prim r p = .ok none) :
    differenceGo prim r (p ++ rest) = .ok none := by
  induction p generalizing r with
  | nil =>
    cases r with
    | none => exact differenceGo_none prim _
    | some cur => simp [differenceGo] at h
  | cons x p ih =>
    cases r with
    | none => exact differenceGo_none prim _
    | some cur =>
      have hcons : ∀ (l : List Feature), differenceGo prim (some cur) (x :: l)
          = Except.bind (prim cur x) (fun r => differenceGo prim r l) := fun _ => rfl
      rw [hcons] at h
      rw [List.cons_append, hcons]
      cases hp : prim cur x with
      | error e =>
        rw [hp] at h
        exact Except.noConfusion (show Except.error e = Except.ok none from h)
      | ok r' =>
        rw [hp] at h
        exact ih r' h

end DifferenceFeature

/-! ## GeoEditor: selection and pending-operation state machine
(`src/lib/core/GeoEditor.ts`)

The modelled slice of the `GeoEditor` class state: the ordered
selection list, the pending union/difference operation, the
select-mode flag, the active modes, the composite-operation re-entrancy
flag, the host Feature Store and the history manager.  Rendering-only
state (highlight layers, popups, cursor, toolbar) and gesture state of
unrelated modes are dropped.  `findGeomanDataForFeature` is a host
lookup and is passed in as `resolve`; the `Date.now()` fallback base of
`selectFeatures` is passed in as `fallbackBase`. -/

/-- The host feature handle (`GeomanFeatureData`): only its id is
consulted by the modelled paths (stringified by the source). -/
structure GeomanFeatureData where
  id : String
  deriving DecidableEq, Repr

/-- A selection entry (`SelectedFeature` in `src/lib/core/types`).
The `layerId` field (constantly `'default'` at every construction
site) is omitted. -/
structure SelectedFeature where
  id : String
  feature : Feature
  geomanData : Option GeomanFeatureData
  deriving DecidableEq, Repr

/-- The two pending multi-select operations. -/
inductive PendingOp where
  | union
  | difference
  deriving DecidableEq, Repr

/-- The modelled `GeoEditor` state. -/
structure EditorModel where
  selectedFeatures : List SelectedFeature
  pendingOperation : Option PendingOp
  isSelectMode : Bool
  activeDrawMode : Option String
  activeEditMode : Option String
  isPerformingCompositeOperation : Bool
  store : Store
  history : HistoryManager Command
  lastCreatedFeature : Option Feature

namespace GeoEditor

/-- The id under which a feature enters the selection:
`String(resolvedGeomanData?.id ?? feature.id ?? fallback)`.
(`String(undefined)` is the literal `"undefined"`, which is the
fallback used by `addToSelection`.) -/
def resolveSelectionId (gd : Option GeomanFeatureData) (f : Feature) (fallback : String) :
    String :=
  match gd with
  | some g => g.id
  | none =>
    match f.id with
    | some s => s
    | none => fallback

/-- Source `isPolygon` (`src/lib/utils/geometryUtils`). -/
def isPolygon (f : Feature) : Bool :=
  f.geom.gtype == "Polygon" || f.geom.gtype == "MultiPolygon"

/-- Source `getPolygonFeatures` (`src/lib/utils/selectionUtils`). -/
def getPolygonFeatures (features : List Feature) : List Feature :=
  features.filter isPolygon

/-- Source `getSelectedFeatures()`. -/
def getSelectedFeatures (st : EditorModel) : List Feature :=
  st.selectedFeatures.map (fun s => s.feature)

/-- Source `selectFeatures(features, geomanDataList?)`: wholesale replacement
of the selection.  Per-index id resolution uses the provided geoman
data when the list is non-empty, otherwise a fresh
`findGeomanDataForFeature` lookup per feature; the per-index fallback
id is `` `${fallbackBase}-${i}` ``. -/
def selectFeatures (resolve : Feature → Option GeomanFeatureData) (fallbackBase : String)
    (features : List Feature) (geomanDataList : List (Option GeomanFeatureData))
    (st : EditorModel) : EditorModel :=
  let resolved := if geomanDataList.isEmpty then features.map resolve else geomanDataList
  { st with selectedFeatures :=
      features.enum.map (fun p =>
        { id := resolveSelectionId (resolved.get? p.1).join p.2
            (fallbackBase ++ "-" ++ toString p.1)
          feature := p.2
          geomanData := (resolved.get? p.1).join }) }

/-- Source `addToSelection(feature, geomanData?)`: appends unless an entry
with the same resolved id already exists. -/
def addToSelection (resolve : Feature → Option GeomanFeatureData) (f : Feature)
    (geomanData : Option GeomanFeatureData) (st : EditorModel) : EditorModel :=
  let resolvedGeomanData := match geomanData with
    | some g => some g
    | none => resolve f
  let featureId := resolveSelectionId resolvedGeomanData f "undefined"
  if st.selectedFeatures.any (fun s => s.id == featureId) then st
  else
    { st with selectedFeatures := st.selectedFeatures ++
        [{ id := featureId, feature := f, geomanData := resolvedGeomanData }] }

/-- Source `removeFromSelection(featureId)`. -/
def removeFromSelection (featureId : String) (st : EditorModel) : EditorModel :=
  { st with selectedFeatures := st.selectedFeatures.filter (fun s => s.id != featureId) }

/-- Source `clearSelection()`. -/
def clearSelection (st : EditorModel) : EditorModel :=
  { st with selectedFeatures := [] }

/-- Source `toggleFeatureSelection(feature, geomanData?)`. -/
def toggleFeatureSelection (resolve : Feature → Option GeomanFeatureData) (f : Feature)
    (geomanData : Option GeomanFeatureData) (st : EditorModel) : EditorModel :=
  let resolvedGeomanData := match geomanData with
    | some g => some g
    | none => resolve f
  let featureId := resolveSelectionId resolvedGeomanData f "undefined"
  if st.selectedFeatures.any (fun s => s.id == featureId) then
    removeFromSelection featureId st
  else
    addToSelection resolve f resolvedGeomanData st

/-- The click handler installed by `setupSelectionHandler` (GeoEditor.ts
lines 303–338).  `hit` is the combined result of
`findFeatureByMouseEvent` / `findFeatureAtPoint`.  In pending
union/difference mode a polygon hit is added to the selection
(multi-select) and non-polygon hits are ignored; otherwise shift-click
toggles and plain click replaces; a miss clears the selection unless
shift is held or a pending operation is active. -/
def onMapClick (resolve : Feature → Option GeomanFeatureData) (fallbackBase : String)
    (st : EditorModel) (hit : Option (Feature × GeomanFeatureData)) (shiftKey : Bool) :
    EditorModel :=
  if !st.isSelectMode && st.pendingOperation.isNone then st
  else
    match hit with
    | some (feature, geomanData) =>
      if st.pendingOperation.isSome then
        if isPolygon feature then addToSelection resolve feature (some geomanData) st
        else st
      else if shiftKey then toggleFeatureSelection resolve feature (some geomanData) st
      else selectFeatures resolve fallbackBase [feature] [some geomanData] st
    | none =>
      if !shiftKey && st.pendingOperation.isNone then clearSelection st else st

/-- Source `disableAllModes()` restricted to the modelled fields: resets the
pending operation, select mode and active modes. -/
def disableAllModes (st : EditorModel) : EditorModel :=
  { st with pendingOperation := none, isSelectMode := false
            activeDrawMode := none, activeEditMode := none }

/-- Source `deleteGeomanFeatures(features)` on the modelled store: each
feature's store entry (keyed by its extracted id) is removed. -/
def deleteGeomanFeatures (features : List Feature) (s : Store) : Store :=
  features.foldl (fun s f =>
    match extractFeatureId f with
    | some i => deleteById i s
    | none => s) s

/-- Source `recordCompositeOperation(deletedFeatures, createdFeatures, d)`:
skipped while the history manager is replaying; otherwise records one
`CompositeCommand` of delete commands for the originals followed by
create commands for the results. -/
def recordCompositeOperation (deletedFeatures createdFeatures : List Feature)
    (st : EditorModel) : EditorModel :=
  if st.history.isExecutingCommand then st
  else
    { st with history :=
        (HistoryManager.record
          (Command.composite
            (deletedFeatures.map (fun f => LeafCommand.deleteFeature f) ++
             createdFeatures.map (fun f => LeafCommand.createFeature f)))
          st.history).1 }

/-- Source `handleUnionResult(result)`: on failure (or a missing result
feature) only a console warning is emitted and nothing changes.  On
success the composite command is recorded, the originals are deleted,
the selection is cleared, the merged feature is imported and all modes
are disabled.  (`isPerformingCompositeOperation` is set around the
mutation block and reset by `finally`, so it is unchanged in the
result; temporary-feature cleanup and event emission have no modelled
effect.) -/
def handleUnionResult (result : UnionResult) (st : EditorModel) : EditorModel :=
  if !result.success || result.result.isNone then st
  else
    let st1 := recordCompositeOperation result.originals result.result.toList st
    let st2 := { st1 with store := deleteGeomanFeatures result.originals st1.store }
    let st3 := clearSelection st2
    let st4 := match result.result with
      | some r =>
        { st3 with store := (importGeoJsonFeature r st3.store).2, lastCreatedFeature := some r }
      | none => st3
    disableAllModes st4

/-- Source `handleDifferenceResult(result)`: on failure only a console warning
is emitted and nothing changes.  On success the composite command
(base and subtracted deleted, result created when present) is recorded,
those features are deleted, the selection is cleared, the result — when
not fully consumed — is imported, and all modes are disabled. -/
def handleDifferenceResult (result : DifferenceResult) (st : EditorModel) : EditorModel :=
  if !result.success then st
  else
    let st1 := recordCompositeOperation (result.base :: result.subtracted)
      result.result.toList st
    let st2 := { st1 with
      store := deleteGeomanFeatures (result.base :: result.subtracted) st1.store }
    let st3 := clearSelection st2
    let st4 := match result.result with
      | some r =>
        { st3 with store := (importGeoJsonFeature r st3.store).2, lastCreatedFeature := some r }
      | none => st3
    disableAllModes st4

/-- Source `executeUnion()`: fewer than two selected polygons → warning only;
otherwise run the union operation on the selected polygons and hand the
result to `handleUnionResult`. -/
def executeUnion (prim : List Feature → Except String (Option Feature)) (gen : String)
    (st : EditorModel) : EditorModel :=
  let polygons := getPolygonFeatures (getSelectedFeatures st)
  if polygons.length < 2 then st
  else handleUnionResult (UnionFeature.union prim gen polygons none) st

/-- Source `executeDifference()`: fewer than two selected polygons → warning
only; otherwise the first selected polygon is the base, the rest are
subtracted, and the result goes to `handleDifferenceResult`. -/
def executeDifference (primD : Feature → Feature → Except String (Option Feature))
    (gen : String) (st : EditorModel) : EditorModel :=
  let polygons := getPolygonFeatures (getSelectedFeatures st)
  match polygons with
  | base :: sub1 :: subRest =>
    handleDifferenceResult
      (DifferenceFeature.difference primD gen base (sub1 :: subRest) none) st
  | _ => st

/-- Source `executePendingOperation()` (GeoEditor.ts lines 1218–1228):
dispatch the pending operation, then clear it. -/
def executePendingOperation (prim : List Feature → Except String (Option Feature))
    (primD : Feature → Feature → Except String (Option Feature)) (gen : String)
    (st : EditorModel) : EditorModel :=
  match st.pendingOperation with
  | none => st
  | some op =>
    let st1 := match op with
      | .union => executeUnion prim gen st
      | .difference => executeDifference primD gen st
    { st1 with pendingOperation := none }

/-- The Enter branch of the keydown handler (GeoEditor.ts lines
3386–3390): `if (e.key === 'Enter' && this.pendingOperation)
this.executePendingOperation()`. -/
def onEnterKey (prim : List Feature → Except String (Option Feature))
    (primD : Feature → Feature → Except String (Option Feature)) (gen : String)
    (st : EditorModel) : EditorModel :=
  if st.pendingOperation.isSome then executePendingOperation prim primD gen st else st

/-- Source `enableUnionMode()`: with at least two selected polygons the union
runs immediately; otherwise the editor enters pending-union and waits
for clicks. -/
def enableUnionMode (prim : List Feature → Except String (Option Feature)) (gen : String)
    (st : EditorModel) : EditorModel :=
  let polygons := getPolygonFeatures (getSelectedFeatures st)
  if 2 ≤ polygons.length then executeUnion prim gen st
  else { st with pendingOperation := some PendingOp.union }

/-- Source `enableDifferenceMode()`: symmetric to `enableUnionMode`. -/
def enableDifferenceMode (primD : Feature → Feature → Except String (Option Feature))
    (gen : String) (st : EditorModel) : EditorModel :=
  let polygons := getPolygonFeatures (getSelectedFeatures st)
  if 2 ≤ polygons.length then executeDifference primD gen st
  else { st with pendingOperation := some PendingOp.difference }

/-- No two selection entries share the same resolved id. -/
abbrev selectionIdsNodup (st : EditorModel) : Prop :=
  (st.selectedFeatures.map (fun s => s.id)).Nodup

end GeoEditor

/-! ## Concrete sample data (used by witnesses and counterexamples) -/

namespace Samples

def polyGeomA : Geom := ⟨"Polygon", [[(0, 0), (0, 4), (4, 4), (4, 0), (0, 0)]]⟩

def polyGeomB : Geom := ⟨"Polygon", [[(1, 1), (1, 3), (3, 3), (3, 1), (1, 1)]]⟩

def featA : Feature := ⟨some "a", polyGeomA, []⟩

def featB : Feature := ⟨some "b", polyGeomB, []⟩

def emptyStore : Store := fun _ => none

/-- A host lookup that finds nothing. -/
def resolve0 : Feature → Option GeomanFeatureData := fun _ => none

/-- A fresh editor over an empty store with an empty 50-entry history. -/
def baseEditor : EditorModel :=
  { selectedFeatures := [], pendingOperation := none, isSelectMode := false
    activeDrawMode := none, activeEditMode := none
    isPerformingCompositeOperation := false, store := emptyStore
    history := ⟨[], [], 50, false⟩, lastCreatedFeature := none }

/-- In pending-union with one polygon already selected. -/
def pendingEditor : EditorModel :=
  { baseEditor with pendingOperation := some PendingOp.union
                    selectedFeatures := [⟨"a", featA, none⟩] }

/-- In pending-difference with one polygon already selected. -/
def pendingDiffEditor : EditorModel :=
  { pendingEditor with pendingOperation := some PendingOp.difference }

/-- Two polygons selected, no pending operation. -/
def twoSelectedEditor : EditorModel :=
  { baseEditor with selectedFeatures := [⟨"a", featA, none⟩, ⟨"b", featB, none⟩] }

/-- A failed union result. -/
def failedUnion : UnionResult :=
  { result := none, originals := [], success := false, error := some "union failed" }

/-- A failed difference result. -/
def failedDifference : DifferenceResult :=
  { result := none, base := featA, subtracted := [], success := false
    error := some "difference failed" }

end Samples

/-! ## Claims -/

/-- C2. For every `HistoryManager` state in which a replay is not
in progress, `record(command)` pushes the command onto the undo stack
and evicts oldest entries (together: the new undo stack is the first
`maxSize` elements of the pushed stack, top first), so the undo count
never exceeds the configured maximum; it clears the redo stack (so
`canRedo()` is `false` afterwards) and fires the change notification
with the updated `(canUndo, canRedo)`. -/
theorem record_contract {α : Type} (c : α) (m : HistoryManager α)
    (h : m.isExecuting = false) :
    ((HistoryManager.record c m).1).undoStack = (c :: m.undoStack).take m.maxSize ∧
    (HistoryManager.getState (HistoryManager.record c m).1).undoCount ≤ m.maxSize ∧
    ((HistoryManager.record c m).1).redoStack = [] ∧
    HistoryManager.canRedo (HistoryManager.record c m).1 = false ∧
    (HistoryManager.record c m).2 =
      some (HistoryManager.canUndo (HistoryManager.record c m).1,
            HistoryManager.canRedo (HistoryManager.record c m).1) := by
  rw [record_eq c m h]
  refine ⟨rfl, ?_, rfl, ?_, ?_⟩
  · simp only [HistoryManager.getState, List.length_take]
    omega
  · simp [HistoryManager.canRedo]
  · simp [HistoryManager.canUndo, HistoryManager.canRedo]

/-- Witness for C2 at a concrete manager. -/
theorem record_contract_witness :
    ((⟨[], [], 50, false⟩ : HistoryManager Nat).isExecuting = false) ∧
    (((HistoryManager.record 7 (⟨[], [], 50, false⟩ : HistoryManager Nat)).1).undoStack
        = (([7] : List Nat)).take 50 ∧
     (HistoryManager.getState
        (HistoryManager.record 7 (⟨[], [], 50, false⟩ : HistoryManager Nat)).1).undoCount ≤ 50 ∧
     ((HistoryManager.record 7 (⟨[], [], 50, false⟩ : HistoryManager Nat)).1).redoStack = [] ∧
     HistoryManager.canRedo
        (HistoryManager.record 7 (⟨[], [], 50, false⟩ : HistoryManager Nat)).1 = false ∧
     (HistoryManager.record 7 (⟨[], [], 50, false⟩ : HistoryManager Nat)).2 =
       some (HistoryManager.canUndo
               (HistoryManager.record 7 (⟨[], [], 50, false⟩ : HistoryManager Nat)).1,
             HistoryManager.canRedo
               (HistoryManager.record 7 (⟨[], [], 50, false⟩ : HistoryManager Nat)).1)) :=
  ⟨rfl, record_contract 7 ⟨[], [], 50, false⟩ rfl⟩

/-- C3. A `record(command)` call made while the internal executing
flag is set (an undo/redo replay is in progress) leaves both stacks —
indeed the whole manager — unchanged and fires no notification, so
history never grows during replay. -/
theorem record_during_replay {α : Type} (c : α) (m : HistoryManager α)
    (h : m.isExecuting = true) :
    ((HistoryManager.record c m).1).undoStack = m.undoStack ∧
    ((HistoryManager.record c m).1).redoStack = m.redoStack ∧
    (HistoryManager.record c m).1 = m ∧
    (HistoryManager.record c m).2 = none := by
  simp [HistoryManager.record, h]

/-- Witness for C3 at a concrete manager with the flag set. -/
theorem record_during_replay_witness :
    ((⟨[1], [2], 50, true⟩ : HistoryManager Nat).isExecuting = true) ∧
    (((HistoryManager.record 7 (⟨[1], [2], 50, true⟩ : HistoryManager Nat)).1).undoStack = [1] ∧
     ((HistoryManager.record 7 (⟨[1], [2], 50, true⟩ : HistoryManager Nat)).1).redoStack = [2] ∧
     (HistoryManager.record 7 (⟨[1], [2], 50, true⟩ : HistoryManager Nat)).1
        = (⟨[1], [2], 50, true⟩ : HistoryManager Nat) ∧
     (HistoryManager.record 7 (⟨[1], [2], 50, true⟩ : HistoryManager Nat)).2 = none) :=
  ⟨rfl, record_during_replay 7 ⟨[1], [2], 50, true⟩ rfl⟩

/-- C9. After any `undo()`/`redo()` call — whether the popped
command's `undo()`/`execute()` body returns normally or throws — the
executing flag reads `false` (`isExecutingCommand()` is reset by the
`finally`), so later `record()` calls are never permanently
suppressed; and on a throw the command has already been popped and is
not pushed onto the opposite stack. -/
theorem replay_flag_always_cleared {α : Type}
    (behaviorU behaviorR : α → Except Unit Unit) (m : HistoryManager α)
    (h : m.isExecuting = false) :
    HistoryManager.outcomeExecutingFlag (HistoryManager.undoFallible behaviorU m) = false ∧
    HistoryManager.outcomeExecutingFlag (HistoryManager.redoFallible behaviorR m) = false ∧
    (∀ m', HistoryManager.undoFallible behaviorU m = .error m' →
      m'.undoStack = m.undoStack.tail ∧ m'.redoStack = m.redoStack) ∧
    (∀ m', HistoryManager.redoFallible behaviorR m = .error m' →
      m'.redoStack = m.redoStack.tail ∧ m'.undoStack = m.undoStack) := by
  refine ⟨?_, ?_, ?_, ?_⟩
  · cases hm : m.undoStack with
    | nil =>
      simp [HistoryManager.undoFallible, hm, HistoryManager.outcomeExecutingFlag,
        HistoryManager.isExecutingCommand, h]
    | cons c rest =>
      cases hb : behaviorU c <;>
        simp [HistoryManager.undoFallible, hm, hb, HistoryManager.outcomeExecutingFlag,
          HistoryManager.isExecutingCommand]
  · cases hm : m.redoStack with
    | nil =>
      simp [HistoryManager.redoFallible, hm, HistoryManager.outcomeExecutingFlag,
        HistoryManager.isExecutingCommand, h]
    | cons c rest =>
      cases hb : behaviorR c <;>
        simp [HistoryManager.redoFallible, hm, hb, HistoryManager.outcomeExecutingFlag,
          HistoryManager.isExecutingCommand]
  · intro m' hE
    cases hm : m.undoStack with
    | nil => simp [HistoryManager.undoFallible, hm] at hE
    | cons c rest =>
      cases hb : behaviorU c with
      | ok u => simp [HistoryManager.undoFallible, hm, hb] at hE
      | error u =>
        simp only [HistoryManager.undoFallible, hm, hb] at hE
        injection hE with hE
        rw [← hE]
        exact ⟨rfl, rfl⟩
  · intro m' hE
    cases hm : m.redoStack with
    | nil => simp [HistoryManager.redoFallible, hm] at hE
    | cons c rest =>
      cases hb : behaviorR c with
      | ok u => simp [HistoryManager.redoFallible, hm, hb] at hE
      | error u =>
        simp only [HistoryManager.redoFallible, hm, hb] at hE
        injection hE with hE
        rw [← hE]
        exact ⟨rfl, rfl⟩

/-- Witness for C9: a throwing undo body and a normal redo body on a
concrete manager. -/
theorem replay_flag_always_cleared_witness :
    ((⟨[1], [2], 50, false⟩ : HistoryManager Nat).isExecuting = false) ∧
    (HistoryManager.outcomeExecutingFlag
        (HistoryManager.undoFallible (fun _ => Except.error ())
          (⟨[1], [2], 50, false⟩ : HistoryManager Nat)) = false ∧
     HistoryManager.outcomeExecutingFlag
        (HistoryManager.redoFallible (fun _ => Except.ok ())
          (⟨[1], [2], 50, false⟩ : HistoryManager Nat)) = false ∧
     (∀ m', HistoryManager.undoFallible (fun _ => Except.error ())
          (⟨[1], [2], 50, false⟩ : HistoryManager Nat) = .error m' →
        m'.undoStack = ([1] : List Nat).tail ∧ m'.redoStack = [2]) ∧
     (∀ m', HistoryManager.redoFallible (fun _ => Except.ok ())
          (⟨[1], [2], 50, false⟩ : HistoryManager Nat) = .error m' →
        m'.redoStack = ([2] : List Nat).tail ∧ m'.undoStack = [1])) :=
  ⟨rfl, replay_flag_always_cleared (fun _ => Except.error ()) (fun _ => Except.ok ())
    ⟨[1], [2], 50, false⟩ rfl⟩

/-- C4. For every base polygon and non-empty subtract list, the
difference subtracts each `subtract[i]` in order from the running
result; if the running result becomes null after a prefix `p` of the
list (the base is fully consumed), the loop stops early — the
remaining elements `rest` are never handed to the geometry primitive —
and the operation reports `success:true` with `result:null`. -/
theorem difference_full_consumption
    (prim : Feature → Feature → Except String (Option Feature)) (gen : String)
    (base : Feature) (p rest : List Feature)
    (optProps : Option (List (String × String)))
    (hne : p ≠ [])
    (hconsumed : DifferenceFeature.differenceGo prim (some base) p = .ok none) :
    DifferenceFeature.difference prim gen base (p ++ rest) optProps =
      { result := none, base := base, subtracted := p ++ rest
        success := true, error := none } := by
  have hall : DifferenceFeature.differenceGo prim (some base) (p ++ rest) = .ok none :=
    DifferenceFeature.differenceGo_append prim p rest (some base) hconsumed
  cases hp : p with
  | nil => exact absurd hp hne
  | cons x l =>
    subst hp
    simp only [List.cons_append] at hall ⊢
    simp only [DifferenceFeature.difference, hall]
    rfl

/-- Witness for C4: a primitive that consumes the base at the first
subtraction; the suffix is empty. -/
theorem difference_full_consumption_witness :
    (([Samples.featB] : List Feature) ≠ [] ∧
     DifferenceFeature.differenceGo (fun _ _ => Except.ok none)
       (some Samples.featA) [Samples.featB] = .ok none) ∧
    DifferenceFeature.difference (fun _ _ => Except.ok none) "g" Samples.featA
        ([Samples.featB] ++ []) none =
      { result := none, base := Samples.featA, subtracted := [Samples.featB] ++ []
        success := true, error := none } :=
  ⟨⟨by simp, rfl⟩,
   difference_full_consumption (fun _ _ => Except.ok none) "g" Samples.featA
     [Samples.featB] [] none (by simp) rfl⟩

/-- C10. If the geometry primitive throws at any point while the
difference iterates over a non-empty subtract list, the whole operation
fails: it returns `success:false`, `result:null` and the prefixed error
message — a partially subtracted intermediate result is never
returned. -/
theorem difference_primitive_throw_fails
    (prim : Feature → Feature → Except String (Option Feature)) (gen : String)
    (base : Feature) (subtract : List Feature)
    (optProps : Option (List (String × String))) (msg : String)
    (hne : subtract ≠ [])
    (hthrow : DifferenceFeature.differenceGo prim (some base) subtract = .error msg) :
    DifferenceFeature.difference prim gen base subtract optProps =
      { result := none, base := base, subtracted := subtract, success := false
        error := some ("Difference operation failed: " ++ msg) } := by
  cases subtract with
  | nil => exact absurd rfl hne
  | cons x l =>
    simp only [DifferenceFeature.difference, hthrow]

/-- Witness for C10: a primitive that subtracts normally once and then
throws on the second element of the subtract list. -/
theorem difference_primitive_throw_fails_witness :
    (([Samples.featB, Samples.featA] : List Feature) ≠ [] ∧
     DifferenceFeature.differenceGo
       (fun _ poly => if poly = Samples.featA then Except.error "boom"
                      else Except.ok (some poly))
       (some Samples.featA) [Samples.featB, Samples.featA] = .error "boom") ∧
    DifferenceFeature.difference
        (fun _ poly => if poly = Samples.featA then Except.error "boom"
                       else Except.ok (some poly))
        "g" Samples.featA [Samples.featB, Samples.featA] none =
      { result := none, base := Samples.featA
        subtracted := [Samples.featB, Samples.featA], success := false
        error := some ("Difference operation failed: " ++ "boom") } :=
  ⟨⟨by simp, by rfl⟩,
   difference_primitive_throw_fails
     (fun _ poly => if poly = Samples.featA then Except.error "boom"
                    else Except.ok (some poly))
     "g" Samples.featA [Samples.featB, Samples.featA] none "boom" (by simp) (by rfl)⟩

/-- C5. The operation `union(features)` fails (`success:false`, `result:null`)
on an empty input; and on a singleton `[f]` it succeeds with a clone
carrying the freshly generated id — distinct from `f`'s id whenever the
generator produced a string different from it — and `f`'s geometry
unchanged, so union is never a true no-op pass-through. -/
theorem union_empty_and_singleton
    (prim : List Feature → Except String (Option Feature)) (gen : String)
    (f : Feature) (optProps : Option (List (String × String)))
    (hfresh : some gen ≠ f.id) :
    ((UnionFeature.union prim gen [] optProps).success = false ∧
     (UnionFeature.union prim gen [] optProps).result = none ∧
     (UnionFeature.union prim gen [] optProps).error = some "No features provided") ∧
    ((UnionFeature.union prim gen [f] optProps).success = true ∧
     ∃ r, (UnionFeature.union prim gen [f] optProps).result = some r ∧
       r.id = some gen ∧ r.id ≠ f.id ∧ r.geom = f.geom) := by
  have hid : (applyOptionProps optProps { f with id := some gen }).id = some gen := by
    cases optProps <;> rfl
  have hgeom : (applyOptionProps optProps { f with id := some gen }).geom = f.geom := by
    cases optProps <;> rfl
  refine ⟨⟨rfl, rfl, rfl⟩, rfl, applyOptionProps optProps { f with id := some gen }, rfl,
    hid, ?_, hgeom⟩
  rw [hid]
  exact hfresh

/-- Witness for C5 at a concrete feature and generated id. -/
theorem union_empty_and_singleton_witness :
    (some "fresh" ≠ Samples.featA.id) ∧
    (((UnionFeature.union (fun _ => Except.ok none) "fresh" [] none).success = false ∧
      (UnionFeature.union (fun _ => Except.ok none) "fresh" [] none).result = none ∧
      (UnionFeature.union (fun _ => Except.ok none) "fresh" [] none).error
        = some "No features provided") ∧
     ((UnionFeature.union (fun _ => Except.ok none) "fresh" [Samples.featA] none).success
        = true ∧
      ∃ r, (UnionFeature.union (fun _ => Except.ok none) "fresh" [Samples.featA] none).result
          = some r ∧
        r.id = some "fresh" ∧ r.id ≠ Samples.featA.id ∧ r.geom = Samples.featA.geom)) :=
  ⟨by decide,
   union_empty_and_singleton (fun _ => Except.ok none) "fresh" Samples.featA none (by decide)⟩

/-- C1. Undo/redo symmetry.  For every sequence of commands
recorded in the `HistoryManager` (while not replaying, and fitting the
configured maximum so none is evicted) and every initial feature-store
state against which the sequence was genuinely performed (each
command's captured state matches the store it executed on, `coherentRun`),
performing one `undo()` per command returns the feature store to its
pre-sequence state — stores are id-indexed maps, so store equality is
id-for-id content equality — and then performing the same number of
`redo()` calls restores the post-sequence state. -/
theorem undo_redo_symmetry (m₀ : HistoryManager Command) (cs : List Command) (s₀ : Store)
    (hflag : m₀.isExecuting = false) (hfit : cs.length ≤ m₀.maxSize)
    (hcoh : coherentRun cs s₀) :
    (undoN Command.undo cs.length (recordAll cs m₀, execAll cs s₀)).2 = s₀ ∧
    (redoN Command.execute cs.length
      (undoN Command.undo cs.length (recordAll cs m₀, execAll cs s₀))).2 = execAll cs s₀ := by
  rcases eq_or_ne cs [] with hcs | hcs
  · subst hcs
    exact ⟨rfl, rfl⟩
  · rw [recordAll_spec cs m₀ hflag hcs]
    have hsplit : (cs.reverse ++ m₀.undoStack).take m₀.maxSize
        = cs.reverse ++ m₀.undoStack.take (m₀.maxSize - cs.length) := by
      rw [List.take_append_eq_append_take,
        List.take_of_length_le (by simpa using hfit)]
      congr 2
      simp
    obtain ⟨u0, r0, mx, ex⟩ := m₀
    simp only at hflag hsplit hfit
    subst hflag
    simp only [hsplit]
    have h1 := undoN_reversal cs (u0.take (mx - cs.length)) [] mx s₀ hcoh
    have h2 := redoN_replay cs (u0.take (mx - cs.length)) [] mx s₀
    constructor
    · rw [h1]
    · rw [h1, h2]

/-- Witness for C1: one create command recorded on a fresh manager
over the empty store. -/
theorem undo_redo_symmetry_witness :
    ((⟨[], [], 50, false⟩ : HistoryManager Command).isExecuting = false ∧
     ([Command.leaf (LeafCommand.createFeature Samples.featA)] : List Command).length
        ≤ (⟨[], [], 50, false⟩ : HistoryManager Command).maxSize ∧
     coherentRun [Command.leaf (LeafCommand.createFeature Samples.featA)]
        Samples.emptyStore) ∧
    ((undoN Command.undo
        ([Command.leaf (LeafCommand.createFeature Samples.featA)] : List Command).length
        (recordAll [Command.leaf (LeafCommand.createFeature Samples.featA)]
          (⟨[], [], 50, false⟩ : HistoryManager Command),
         execAll [Command.leaf (LeafCommand.createFeature Samples.featA)]
          Samples.emptyStore)).2 = Samples.emptyStore ∧
     (redoN Command.execute
        ([Command.leaf (LeafCommand.createFeature Samples.featA)] : List Command).length
        (undoN Command.undo
          ([Command.leaf (LeafCommand.createFeature Samples.featA)] : List Command).length
          (recordAll [Command.leaf (LeafCommand.createFeature Samples.featA)]
            (⟨[], [], 50, false⟩ : HistoryManager Command),
           execAll [Command.leaf (LeafCommand.createFeature Samples.featA)]
            Samples.emptyStore))).2
        = execAll [Command.leaf (LeafCommand.createFeature Samples.featA)]
            Samples.emptyStore) :=
  ⟨⟨rfl, by decide, ⟨fun i _ => rfl, trivial⟩⟩,
   undo_redo_symmetry ⟨[], [], 50, false⟩
     [Command.leaf (LeafCommand.createFeature Samples.featA)] Samples.emptyStore
     rfl (by decide) ⟨fun i _ => rfl, trivial⟩⟩

/-- C6 counterexample. In pending-union with one polygon selected,
a click that hits a second polygon brings the selection to the
2-polygon threshold — yet the pending operation is *not* executed: the
click handler only adds to the selection, the operation stays pending,
nothing is recorded to history and the store is untouched.  (Execution
would have cleared `pendingOperation`, recorded a composite command and
mutated the store.) -/
theorem pending_threshold_counterexample :
    (GeoEditor.onMapClick Samples.resolve0 "fb" Samples.pendingEditor
        (some (Samples.featB, ⟨"b"⟩)) false).selectedFeatures.length = 2 ∧
    (GeoEditor.getPolygonFeatures (GeoEditor.getSelectedFeatures
        (GeoEditor.onMapClick Samples.resolve0 "fb" Samples.pendingEditor
          (some (Samples.featB, ⟨"b"⟩)) false))).length = 2 ∧
    (GeoEditor.onMapClick Samples.resolve0 "fb" Samples.pendingEditor
        (some (Samples.featB, ⟨"b"⟩)) false).pendingOperation = some PendingOp.union ∧
    (GeoEditor.onMapClick Samples.resolve0 "fb" Samples.pendingEditor
        (some (Samples.featB, ⟨"b"⟩)) false).history.undoStack = [] ∧
    (GeoEditor.onMapClick Samples.resolve0 "fb" Samples.pendingEditor
        (some (Samples.featB, ⟨"b"⟩)) false).store = Samples.pendingEditor.store := by
  refine ⟨?_, ?_, ?_, ?_, ?_⟩ <;> rfl

/-- Operation `addToSelection` never touches the pending operation. -/
theorem addToSelection_pendingOperation
    (resolve : Feature → Option GeomanFeatureData) (f : Feature)
    (gd : Option GeomanFeatureData) (st : EditorModel) :
    (GeoEditor.addToSelection resolve f gd st).pendingOperation = st.pendingOperation := by
  simp only [GeoEditor.addToSelection]
  split <;> rfl

/-- C6 amended. In pending-union / pending-difference every click
that hits a polygon only adds it to the selection and leaves the
operation pending — reaching the 2-polygon threshold by click does
*not* itself trigger execution.  Execution is triggered by the explicit
Enter confirm (`executePendingOperation`), which dispatches the pending
operation and clears it, or immediately at request time
(`enableUnionMode` / `enableDifferenceMode`) when at least two polygons
are already selected. -/
theorem pending_execution_triggers :
    (∀ (resolve : Feature → Option GeomanFeatureData) (fallbackBase : String)
       (st : EditorModel) (f : Feature) (gd : GeomanFeatureData) (shiftKey : Bool)
       (op : PendingOp),
       st.pendingOperation = some op → GeoEditor.isPolygon f = true →
       GeoEditor.onMapClick resolve fallbackBase st (some (f, gd)) shiftKey
           = GeoEditor.addToSelection resolve f (some gd) st ∧
       (GeoEditor.onMapClick resolve fallbackBase st (some (f, gd)) shiftKey).pendingOperation
           = some op) ∧
    (∀ (prim : List Feature → Except String (Option Feature))
       (primD : Feature → Feature → Except String (Option Feature)) (gen : String)
       (st : EditorModel),
       st.pendingOperation = some PendingOp.union →
       GeoEditor.onEnterKey prim primD gen st
           = { GeoEditor.executeUnion prim gen st with pendingOperation := none }) ∧
    (∀ (prim : List Feature → Except String (Option Feature))
       (primD : Feature → Feature → Except String (Option Feature)) (gen : String)
       (st : EditorModel),
       st.pendingOperation = some PendingOp.difference →
       GeoEditor.onEnterKey prim primD gen st
           = { GeoEditor.executeDifference primD gen st with pendingOperation := none }) ∧
    (∀ (prim : List Feature → Except String (Option Feature)) (gen : String)
       (st : EditorModel),
       2 ≤ (GeoEditor.getPolygonFeatures (GeoEditor.getSelectedFeatures st)).length →
       GeoEditor.enableUnionMode prim gen st = GeoEditor.executeUnion prim gen st) ∧
    (∀ (primD : Feature → Feature → Except String (Option Feature)) (gen : String)
       (st : EditorModel),
       2 ≤ (GeoEditor.getPolygonFeatures (GeoEditor.getSelectedFeatures st)).length →
       GeoEditor.enableDifferenceMode primD gen st = GeoEditor.executeDifference primD gen st) := by
  refine ⟨?_, ?_, ?_, ?_, ?_⟩
  · intro resolve fallbackBase st f gd shiftKey op hpend hpoly
    constructor
    · simp [GeoEditor.onMapClick, hpend, hpoly]
    · simp only [GeoEditor.onMapClick, hpend]
      simp [hpoly, addToSelection_pendingOperation, hpend]
  · intro prim primD gen st hpend
    simp [GeoEditor.onEnterKey, GeoEditor.executePendingOperation, hpend]
  · intro prim primD gen st hpend
    simp [GeoEditor.onEnterKey, GeoEditor.executePendingOperation, hpend]
  · intro prim gen st h2
    simp [GeoEditor.enableUnionMode, h2]
  · intro primD gen st h2
    simp [GeoEditor.enableDifferenceMode, h2]

/-- Witness for the amended C6 at concrete states. -/
theorem pending_execution_triggers_witness :
    ((Samples.pendingEditor.pendingOperation = some PendingOp.union ∧
      GeoEditor.isPolygon Samples.featB = true ∧
      Samples.pendingDiffEditor.pendingOperation = some PendingOp.difference ∧
      2 ≤ (GeoEditor.getPolygonFeatures
            (GeoEditor.getSelectedFeatures Samples.twoSelectedEditor)).length) ∧
     (GeoEditor.onMapClick Samples.resolve0 "fb" Samples.pendingEditor
          (some (Samples.featB, ⟨"b"⟩)) false
        = GeoEditor.addToSelection Samples.resolve0 Samples.featB (some ⟨"b"⟩)
            Samples.pendingEditor ∧
      (GeoEditor.onMapClick Samples.resolve0 "fb" Samples.pendingEditor
          (some (Samples.featB, ⟨"b"⟩)) false).pendingOperation = some PendingOp.union) ∧
     GeoEditor.onEnterKey (fun _ => Except.ok none) (fun _ _ => Except.ok none) "g"
         Samples.pendingEditor
       = { GeoEditor.executeUnion (fun _ => Except.ok none) "g" Samples.pendingEditor with
             pendingOperation := none } ∧
     GeoEditor.onEnterKey (fun _ => Except.ok none) (fun _ _ => Except.ok none) "g"
         Samples.pendingDiffEditor
       = { GeoEditor.executeDifference (fun _ _ => Except.ok none) "g"
             Samples.pendingDiffEditor with pendingOperation := none } ∧
     GeoEditor.enableUnionMode (fun _ => Except.ok none) "g" Samples.twoSelectedEditor
       = GeoEditor.executeUnion (fun _ => Except.ok none) "g" Samples.twoSelectedEditor ∧
     GeoEditor.enableDifferenceMode (fun _ _ => Except.ok none) "g" Samples.twoSelectedEditor
       = GeoEditor.executeDifference (fun _ _ => Except.ok none) "g"
           Samples.twoSelectedEditor) :=
  ⟨⟨rfl, rfl, rfl, by decide⟩,
   pending_execution_triggers.1 Samples.resolve0 "fb" Samples.pendingEditor Samples.featB
     ⟨"b"⟩ false PendingOp.union rfl rfl,
   pending_execution_triggers.2.1 (fun _ => Except.ok none) (fun _ _ => Except.ok none) "g"
     Samples.pendingEditor rfl,
   pending_execution_triggers.2.2.1 (fun _ => Except.ok none) (fun _ _ => Except.ok none) "g"
     Samples.pendingDiffEditor rfl,
   pending_execution_triggers.2.2.2.1 (fun _ => Except.ok none) "g"
     Samples.twoSelectedEditor (by decide),
   pending_execution_triggers.2.2.2.2 (fun _ _ => Except.ok none) "g"
     Samples.twoSelectedEditor (by decide)⟩

/-- C7 counterexample. Operation `selectFeatures` replaces the selection
wholesale without de-duplication: handed the same feature twice, it
produces two entries with the same resolved id, so it does not preserve
the no-duplicate invariant. -/
theorem selection_nodup_counterexample :
    ¬ GeoEditor.selectionIdsNodup
        (GeoEditor.selectFeatures Samples.resolve0 "fb" [Samples.featA, Samples.featA] []
          Samples.baseEditor) := by
  decide

theorem addToSelection_preserves_nodup
    (resolve : Feature → Option GeomanFeatureData) (f : Feature)
    (gd : Option GeomanFeatureData) (st : EditorModel)
    (h : GeoEditor.selectionIdsNodup st) :
    GeoEditor.selectionIdsNodup (GeoEditor.addToSelection resolve f gd st) := by
  simp only [GeoEditor.addToSelection]
  split
  · exact h
  case isFalse hany =>
    simp only [GeoEditor.selectionIdsNodup, List.map_append, List.map_cons, List.map_nil]
    rw [List.nodup_append]
    refine ⟨h, List.nodup_singleton _, ?_⟩
    intro a ha hb
    rw [List.mem_singleton] at hb
    subst hb
    obtain ⟨s, hs, hsid⟩ := List.mem_map.mp ha
    exact hany (List.any_eq_true.mpr ⟨s, hs, by simp [hsid]⟩)

theorem removeFromSelection_preserves_nodup (featureId : String) (st : EditorModel)
    (h : GeoEditor.selectionIdsNodup st) :
    GeoEditor.selectionIdsNodup (GeoEditor.removeFromSelection featureId st) := by
  simp only [GeoEditor.removeFromSelection, GeoEditor.selectionIdsNodup]
  exact List.Nodup.sublist ((List.filter_sublist _).map _) h

/-- C7 amended. Operations `addToSelection`, `toggleFeatureSelection`,
`removeFromSelection` and `clearSelection` preserve the invariant that
no two selection entries share the same resolved id; `selectFeatures`,
which replaces the selection wholesale without de-duplication,
establishes it exactly when the ids it resolves for the input features
are pairwise distinct. -/
theorem selection_mutators_preserve_nodup :
    (∀ (resolve : Feature → Option GeomanFeatureData) (f : Feature)
       (gd : Option GeomanFeatureData) (st : EditorModel),
       GeoEditor.selectionIdsNodup st →
       GeoEditor.selectionIdsNodup (GeoEditor.addToSelection resolve f gd st)) ∧
    (∀ (resolve : Feature → Option GeomanFeatureData) (f : Feature)
       (gd : Option GeomanFeatureData) (st : EditorModel),
       GeoEditor.selectionIdsNodup st →
       GeoEditor.selectionIdsNodup (GeoEditor.toggleFeatureSelection resolve f gd st)) ∧
    (∀ (featureId : String) (st : EditorModel),
       GeoEditor.selectionIdsNodup st →
       GeoEditor.selectionIdsNodup (GeoEditor.removeFromSelection featureId st)) ∧
    (∀ st : EditorModel, GeoEditor.selectionIdsNodup (GeoEditor.clearSelection st)) ∧
    (∀ (resolve : Feature → Option GeomanFeatureData) (fallbackBase : String)
       (features : List Feature) (geomanDataList : List (Option GeomanFeatureData))
       (st : EditorModel),
       (features.enum.map (fun p =>
          GeoEditor.resolveSelectionId
            ((if geomanDataList.isEmpty then features.map resolve
              else geomanDataList).get? p.1).join
            p.2 (fallbackBase ++ "-" ++ toString p.1))).Nodup →
       GeoEditor.selectionIdsNodup
         (GeoEditor.selectFeatures resolve fallbackBase features geomanDataList st)) := by
  refine ⟨addToSelection_preserves_nodup, ?_, removeFromSelection_preserves_nodup, ?_, ?_⟩
  · intro resolve f gd st h
    simp only [GeoEditor.toggleFeatureSelection]
    split
    · exact removeFromSelection_preserves_nodup _ _ h
    · exact addToSelection_preserves_nodup _ _ _ _ h
  · intro st
    simp [GeoEditor.clearSelection, GeoEditor.selectionIdsNodup]
  · intro resolve fallbackBase features geomanDataList st h
    simp only [GeoEditor.selectFeatures, GeoEditor.selectionIdsNodup, List.map_map]
    simpa [Function.comp] using h

/-- Witness for the amended C7 at concrete states. -/
theorem selection_mutators_preserve_nodup_witness :
    (GeoEditor.selectionIdsNodup Samples.pendingEditor ∧
     ([Samples.featA, Samples.featB].enum.map (fun p =>
        GeoEditor.resolveSelectionId
          ((if (([] : List (Option GeomanFeatureData))).isEmpty
            then [Samples.featA, Samples.featB].map Samples.resolve0
            else ([] : List (Option GeomanFeatureData))).get? p.1).join
          p.2 ("fb" ++ "-" ++ toString p.1))).Nodup) ∧
    (GeoEditor.selectionIdsNodup
       (GeoEditor.addToSelection Samples.resolve0 Samples.featB none Samples.pendingEditor) ∧
     GeoEditor.selectionIdsNodup
       (GeoEditor.toggleFeatureSelection Samples.resolve0 Samples.featB none
         Samples.pendingEditor) ∧
     GeoEditor.selectionIdsNodup
       (GeoEditor.removeFromSelection "a" Samples.pendingEditor) ∧
     GeoEditor.selectionIdsNodup (GeoEditor.clearSelection Samples.baseEditor) ∧
     GeoEditor.selectionIdsNodup
       (GeoEditor.selectFeatures Samples.resolve0 "fb" [Samples.featA, Samples.featB] []
         Samples.baseEditor)) :=
  ⟨⟨by decide, by decide⟩,
   selection_mutators_preserve_nodup.1 Samples.resolve0 Samples.featB none
     Samples.pendingEditor (by decide),
   selection_mutators_preserve_nodup.2.1 Samples.resolve0 Samples.featB none
     Samples.pendingEditor (by decide),
   selection_mutators_preserve_nodup.2.2.1 "a" Samples.pendingEditor (by decide),
   selection_mutators_preserve_nodup.2.2.2.1 Samples.baseEditor,
   selection_mutators_preserve_nodup.2.2.2.2 Samples.resolve0 "fb"
     [Samples.featA, Samples.featB] [] Samples.baseEditor (by decide)⟩

/-- C8. A union or difference invocation whose operation result has
`success:false` leaves the editor state — in particular the selection
list, the pending operation and the active modes — entirely unchanged:
both result handlers return before any deletion, import, history
record or `clearSelection`, and `executeUnion` only forwards to the
handler. -/
theorem operation_failure_preserves_selection
    (r : UnionResult) (rd : DifferenceResult) (st : EditorModel)
    (prim : List Feature → Except String (Option Feature)) (gen : String)
    (hu : r.success = false) (hd : rd.success = false)
    (hop : (UnionFeature.union prim gen
        (GeoEditor.getPolygonFeatures (GeoEditor.getSelectedFeatures st)) none).success
          = false) :
    GeoEditor.handleUnionResult r st = st ∧
    GeoEditor.handleDifferenceResult rd st = st ∧
    GeoEditor.executeUnion prim gen st = st ∧
    (GeoEditor.handleUnionResult r st).selectedFeatures = st.selectedFeatures ∧
    (GeoEditor.handleUnionResult r st).activeDrawMode = st.activeDrawMode ∧
    (GeoEditor.handleUnionResult r st).activeEditMode = st.activeEditMode ∧
    (GeoEditor.handleDifferenceResult rd st).selectedFeatures = st.selectedFeatures ∧
    (GeoEditor.handleDifferenceResult rd st).pendingOperation = st.pendingOperation := by
  have h1 : GeoEditor.handleUnionResult r st = st := by
    simp [GeoEditor.handleUnionResult, hu]
  have h2 : GeoEditor.handleDifferenceResult rd st = st := by
    simp [GeoEditor.handleDifferenceResult, hd]
  have h3 : GeoEditor.executeUnion prim gen st = st := by
    simp only [GeoEditor.executeUnion]
    split
    · rfl
    · simp [GeoEditor.handleUnionResult, hop]
  exact ⟨h1, h2, h3, by rw [h1], by rw [h1], by rw [h1], by rw [h2], by rw [h2]⟩

/-- Witness for C8 at concrete failed results and a fresh editor. -/
theorem operation_failure_preserves_selection_witness :
    (Samples.failedUnion.success = false ∧
     Samples.failedDifference.success = false ∧
     (UnionFeature.union (fun _ => Except.ok none) "g"
        (GeoEditor.getPolygonFeatures (GeoEditor.getSelectedFeatures Samples.baseEditor))
        none).success = false) ∧
    (GeoEditor.handleUnionResult Samples.failedUnion Samples.baseEditor
        = Samples.baseEditor ∧
     GeoEditor.handleDifferenceResult Samples.failedDifference Samples.baseEditor
        = Samples.baseEditor ∧
     GeoEditor.executeUnion (fun _ => Except.ok none) "g" Samples.baseEditor
        = Samples.baseEditor ∧
     (GeoEditor.handleUnionResult Samples.failedUnion Samples.baseEditor).selectedFeatures
        = Samples.baseEditor.selectedFeatures ∧
     (GeoEditor.handleUnionResult Samples.failedUnion Samples.baseEditor).activeDrawMode
        = Samples.baseEditor.activeDrawMode ∧
     (GeoEditor.handleUnionResult Samples.failedUnion Samples.baseEditor).activeEditMode
        = Samples.baseEditor.activeEditMode ∧
     (GeoEditor.handleDifferenceResult Samples.failedDifference
        Samples.baseEditor).selectedFeatures = Samples.baseEditor.selectedFeatures ∧
     (GeoEditor.handleDifferenceResult Samples.failedDifference
        Samples.baseEditor).pendingOperation = Samples.baseEditor.pendingOperation) :=
  ⟨⟨rfl, rfl, rfl⟩,
   operation_failure_preserves_selection Samples.failedUnion Samples.failedDifference
     Samples.baseEditor (fun _ => Except.ok none) "g" rfl rfl rfl⟩

end GeoEd
